import Mathlib

/-!
A shallow embedding of the FSM code synthesizer (`main.go`) and proofs of
the specified properties.

Modelling conventions:

* Go slices become `List`, Go strings become `String`.
* The Go map `Events map[string]FSMEventDefinition` is modelled as an
  association list `List (String × FSMEventDefinition)` whose order records
  the iteration order the Go runtime happens to choose for one run; Go
  specifies no iteration order, so every permutation of the same key/value
  set models a possible run on the same input document.  Key uniqueness is
  carried as a hypothesis where a proof needs it.
* `strings.ToUpper` is modelled character by character with `Char.toUpper`
  (the names occurring in the development are ASCII, where the two agree).
* Go's `slices.Sort` on strings sorts by byte order, which on UTF-8 data
  coincides with the lexicographic order on the code-point lists; the
  embedding sorts with `List.insertionSort` over that lexicographic order
  (`sLe` below).  The input to the sort is duplicate-free, so any correct
  sorting routine produces the same list.
* The out-of-range index access `states[0]` in `GenerateStateDefinition`
  panics in Go (a fatal, unrecovered abort); fallible functions therefore
  return `Option`, with `none` for the panic.
* `fmt.Fprintf` on a `strings.Builder` cannot fail; a format call is
  modelled as concatenation of the template's fixed text with the rendered
  arguments in splice order.

The template constants `HEADER`, `STATES_DEF`, `FSM_DEF`, `INIT`,
`LOOKUP_DEF` and `EVENT` are referenced by `main.go` but their defining
file is not among the given sources; they are modelled from the spec and
each such definition is marked `Modelled from the spec:` in its doc
comment.
-/

/-- Structure `FSMEventParams` from `main.go`: one typed parameter of an event. -/
structure FSMEventParams where
  Name : String
  «Type» : String
deriving Repr, DecidableEq

/-- Structure `FSMEventDefinition` from `main.go`. -/
structure FSMEventDefinition where
  Source : List String
  Destination : String
  Params : List FSMEventParams
deriving Repr, DecidableEq

/-- Structure `FSMDefinition` from `main.go`; `Events` is a Go map modelled as an
association list in one run's iteration order (see the header comment). -/
structure FSMDefinition where
  Name : String
  Imports : List String
  PackageName : String
  UseSLog : Bool
  Events : List (String × FSMEventDefinition)
deriving Repr, DecidableEq

/-- Go's `strings.ToUpper`, character by character (ASCII-faithful). -/
def stringsToUpper (s : String) : String := ⟨s.data.map Char.toUpper⟩

/-- The order `slices.Sort` uses on strings: lexicographic on the
character lists (equal to Go's byte order on UTF-8 text). -/
def sLe (a b : String) : Prop := a.data ≤ b.data

instance : DecidableRel sLe := fun a b => inferInstanceAs (Decidable (a.data ≤ b.data))

instance : IsTotal String sLe := ⟨fun a b => le_total a.data b.data⟩

instance : IsTrans String sLe := ⟨fun _ _ _ h h' => le_trans h h'⟩

/-- The list of state names `_GetStates` accumulates before deduplication:
each event contributes its `Destination` and then its `Source` entries, in
iteration order (the loop body `stateSet[event.Destination] = true;
for _, state := range event.Source { stateSet[state] = true }`). -/
def statesAll (events : List (String × FSMEventDefinition)) : List String :=
  events.foldl (fun acc e => acc ++ [e.2.Destination] ++ e.2.Source) []

/-- Function `_GetStates` from `main.go`: collect every destination and source into
a set, then sort.  The Go code inserts into a `map[string]bool` and sorts
its key slice; collecting, deduplicating and sorting produces the same
list. -/
def _GetStates (definition : FSMDefinition) : List String :=
  List.insertionSort sLe (statesAll definition.Events).dedup

/-- Function `_GetStateName` from `main.go`: `"STATE_" + strings.ToUpper(s)`. -/
def _GetStateName (s : String) : String := "STATE_" ++ stringsToUpper s

/-- Function `_GetNeededUintSize` from `main.go`: sequential widening of the
default `"uint8"` whenever `count` exceeds `math.MaxUint8`,
`math.MaxUint16`, `math.MaxUint32`.  All of the source's call sites pass a
`len(...)`, so the count is a natural number. -/
def _GetNeededUintSize (count : Nat) : String :=
  let t0 := "uint8"
  let t1 := if count > 255 then "uint16" else t0
  let t2 := if count > 65535 then "uint32" else t1
  let t3 := if count > 4294967295 then "uint64" else t2
  t3

/-- Modelled from the spec: the header template (package declaration and
the opening of the import list, §4.3 step 1); its one splice slot receives
the package name. -/
def HEADER (packageName : String) : String :=
  "package " ++ packageName ++ "\n\nimport (\n"

/-- Function `GenerateHeader` from `main.go`: header template, then the
structured-logging import when `UseSLog`, then the user imports, then the
closing parenthesis. -/
def GenerateHeader (definition : FSMDefinition) : String :=
  HEADER definition.PackageName
    ++ (if definition.UseSLog then "\"log/slog\"\n" else "")
    ++ String.join (definition.Imports.map (fun imprt => "\"" ++ imprt ++ "\"\n"))
    ++ ")"

/-- Modelled from the spec: the state-enum template (§4.3 step 2); its two
splice slots receive the state-ordinal integer type and the mangled name
of the first (ordinal 0) state, which carries the enumeration-start
marker. -/
def STATES_DEF (stateEnumType firstState : String) : String :=
  "\nconst (\n" ++ firstState ++ " " ++ stateEnumType ++ " = iota\n"

/-- Function `GenerateStateDefinition` from `main.go`.  The access `states[0]`
panics when `states` is empty; the panic is modelled as `none`. -/
def GenerateStateDefinition (definition : FSMDefinition) (states : List String) :
    Option String :=
  match states with
  | [] => none
  | state0 :: rest =>
    some (STATES_DEF (_GetNeededUintSize states.length) (_GetStateName state0)
      ++ String.join (rest.map (fun state => _GetStateName state ++ "\n"))
      ++ "\n)")

/-- Modelled from the spec: the machine-type template (§4.3 step 4), the
aggregate type binding a current-state field to the machine name; its two
splice slots receive the machine name and the integer type of the
current-state field. -/
def FSM_DEF (name uintType : String) : String :=
  "\ntype " ++ name ++ " struct \x7b\nState " ++ uintType ++ "\n\x7d\n"

/-- Function `GenerateFSMDefinition` from `main.go`: fills `FSM_DEF` with the
machine name and `_GetNeededUintSize(len(definition.Events))`. -/
def GenerateFSMDefinition (definition : FSMDefinition) : String :=
  FSM_DEF definition.Name (_GetNeededUintSize definition.Events.length)

/-- Modelled from the spec: the constructor template (§4.3 step 3); its
three splice slots receive the machine name twice and the event-ordinal
integer type. -/
def INIT (name1 name2 uintType : String) : String :=
  "\nfunc New" ++ name1 ++ "() " ++ name2 ++ " \x7b\nvar ordinal " ++ uintType
    ++ " = 0\n_ = ordinal\nreturn " ++ name2 ++ "\x7b\x7d\n\x7d\n"

/-- Function `GenerateInitalizer` from `main.go` (source spelling kept). -/
def GenerateInitalizer (definition : FSMDefinition) : String :=
  INIT definition.Name definition.Name (_GetNeededUintSize definition.Events.length)

/-- Modelled from the spec: the opening of the lookup-table template
(§4.3 step 5), mapping integer ordinals to literal state names. -/
def LOOKUP_DEF : String := "\nvar STATE_LOOKUP = map[uint64]string\x7b\n"

/-- Function `GenerateLookup` from `main.go`: one `ordinal:"name",` entry per state
in slice order, then the closing brace. -/
def GenerateLookup (states : List String) : String :=
  LOOKUP_DEF
    ++ String.join (states.enum.map (fun p => toString p.1 ++ ":\"" ++ p.2 ++ "\",\n"))
    ++ "\x7d"

/-- The `validSrcs` local of `GenerateFSMEvent`: the mangled source
symbols, accumulated by the source's append loop. -/
def validSrcs (event : FSMEventDefinition) : List String :=
  event.Source.foldl (fun acc src => acc ++ [_GetStateName src]) []

/-- The `signature` local of `GenerateFSMEvent`: one `"name type"` entry
per parameter, accumulated in declared order. -/
def signature (event : FSMEventDefinition) : List String :=
  event.Params.foldl (fun acc param => acc ++ [param.Name ++ " " ++ param.«Type»]) []

/-- The `callParams` local of `GenerateFSMEvent`: the parameter names in
declared order. -/
def callParams (event : FSMEventDefinition) : List String :=
  event.Params.foldl (fun acc param => acc ++ [param.Name]) []

/-- The text the parameter loop of `GenerateFSMEvent` writes into the
logging builder `lsb`: `"name", name,` per parameter, in declared
order. -/
def paramsLogText (event : FSMEventDefinition) : String :=
  event.Params.foldl
    (fun acc param => acc ++ ("\"" ++ param.Name ++ "\", " ++ param.Name ++ ",")) ""

/-- The `logging` local of `GenerateFSMEvent`: empty unless `UseSLog`;
otherwise the `slog.With(...)` call opened with the start state, followed
by the per-parameter pairs, closed with the `.Info` message built from
`_GetStateName(eventName)`. -/
def eventLogging (definition : FSMDefinition) (eventName : String)
    (event : FSMEventDefinition) : String :=
  if definition.UseSLog then
    "slog.With(\"Start State\", fsm.State," ++ paramsLogText event
      ++ ").Info(\"User has transitioned to " ++ _GetStateName eventName ++ "\")"
  else ""

/-- Modelled from the spec: the per-event transition-function template
(§4.4).  Its fixed text is not among the given sources; only its seventeen
splice slots and their order are fixed by the argument list `ti` that
`GenerateFSMEvent` builds.  The stand-in text below is one guarded
transition function in the shape §4.4 describes, consuming every slot in
the source's splice order. -/
def EVENT (a1 a2 a3 a4 a5 a6 a7 a8 a9 a10 a11 a12 a13 a14 a15 a16 a17 : String) :
    String :=
  "\ntype EVENT_" ++ a1 ++ "_FUNC func(" ++ a2 ++ ")\nfunc (fsm *" ++ a3 ++ ") "
    ++ a4 ++ "(" ++ a5 ++ ") error \x7b\nswitch fsm.State \x7b\ncase " ++ a6
    ++ ":\ndefault:\nreturn fmt.Errorf(\"transition " ++ a7
    ++ " not valid from current state " ++ a8 ++ "\", STATE_LOOKUP[fsm.State])\n\x7d\n"
    ++ a9 ++ "\n_ = EVENT_ORDINAL_" ++ a10 ++ "\nfsm.on" ++ a11 ++ "(" ++ a12
    ++ ")\nfsm.State = " ++ a13 ++ "\nreturn nil\n\x7d\nconst EVENT_" ++ a14 ++ "_"
    ++ a15 ++ " = \"" ++ a16 ++ "\"\nconst ORD_" ++ a17 ++ " = iota\n"

/-- Function `GenerateFSMEvent` from `main.go`: fills the `EVENT` template with the
argument list `ti` in the source's order (`states` is a parameter of the
Go function but is not read by it). -/
def GenerateFSMEvent (definition : FSMDefinition) (states : List String) (index : Nat)
    (eventName : String) (event : FSMEventDefinition) : String :=
  EVENT eventName (String.intercalate "," (signature event)) definition.Name eventName
    (String.intercalate "," (signature event)) (String.intercalate "," (validSrcs event))
    eventName "%v" (eventLogging definition eventName event) (toString index) eventName
    (String.intercalate "," (callParams event)) (_GetStateName event.Destination)
    definition.Name eventName eventName (toString index)

/-- The event loop at the end of `BuildText`: `i := 0; for eventName,
event := range definition.Events { GenerateFSMEvent(..., i, ...); i++ }`,
walking the map in this run's iteration order. -/
def eventsLoop (definition : FSMDefinition) (states : List String) :
    List (String × FSMEventDefinition) → Nat → String
  | [], _ => ""
  | (eventName, event) :: rest, i =>
    GenerateFSMEvent definition states i eventName event
      ++ eventsLoop definition states rest (i + 1)

/-- Function `BuildText` from `main.go`: the five fixed blocks, then one block per
event in map-iteration order; `none` models the `states[0]` panic inside
`GenerateStateDefinition`. -/
def BuildText (definition : FSMDefinition) : Option String :=
  let states := _GetStates definition
  match GenerateStateDefinition definition states with
  | none => none
  | some stateBlock =>
    some (GenerateHeader definition ++ stateBlock
      ++ GenerateInitalizer definition ++ GenerateFSMDefinition definition
      ++ GenerateLookup states ++ eventsLoop definition states definition.Events 0)

/-- The width ladder the spec names: 8, 16, 32 and 64 bits. -/
def uintLadder : List Nat := [8, 16, 32, 64]

/-- The canonical type name of a ladder width. -/
def uintName (w : Nat) : String := "uint" ++ toString w

/-- Spec-side predicate, following the spec's words for comparison with the
source (§4.2): at count `n` the selected width `w` is a ladder width whose
name the code returns, `2 ^ w > n - 1`, and no smaller ladder width
satisfies that inequality. -/
def WidthSpecSelects (n : Nat) : Prop :=
  ∃ w ∈ uintLadder, _GetNeededUintSize n = uintName w ∧ 2 ^ w > n - 1 ∧
    ∀ w' ∈ uintLadder, w' < w → ¬ 2 ^ w' > n - 1

instance (n : Nat) : Decidable (WidthSpecSelects n) :=
  inferInstanceAs (Decidable (∃ w ∈ uintLadder, _))

/-- Modelled from the spec: the generated machine's runtime state (§4.3
step 4) — the aggregate holds one current-state field, read here as the
mangled state symbol it stores. -/
structure GeneratedMachine where
  State : String
deriving Repr, DecidableEq

/-- Modelled from the spec: the runtime behavior of the generated
transition function of one event (§4.4; its text comes from the `EVENT`
template, which is not among the given source files): the call is guarded
on membership of the current state in the event's mangled source set; a
rejected call informs the caller and performs zero state mutations; an
accepted call performs exactly one mutation, to the mangled destination
symbol.  The Boolean reports acceptance to the caller. -/
def generatedTransition (event : FSMEventDefinition) (m : GeneratedMachine) :
    Bool × GeneratedMachine :=
  if m.State ∈ validSrcs event then
    (true, ⟨_GetStateName event.Destination⟩)
  else
    (false, m)

/-- Sample definition: the spec §8 scenario with events `start: idle → running`
and `stop: running → idle`, given here in one possible map-iteration order. -/
def scenarioDef : FSMDefinition :=
  ⟨"Machine", [], "pkg", false,
    [("start", ⟨["idle"], "running", []⟩), ("stop", ⟨["running"], "idle", []⟩)]⟩

/-- Sample definition with an empty event map. -/
def emptyDef : FSMDefinition := ⟨"Machine", [], "pkg", false, []⟩

/-- Sample pair for C1: one two-event map presented in its two possible
iteration orders (Go fixes no order, so both model runs on the same input
document). -/
def defEventsAB : FSMDefinition :=
  ⟨"M", [], "pkg", false, [("a", ⟨["s"], "t", []⟩), ("b", ⟨["t"], "s", []⟩)]⟩

/-- The same event map as `defEventsAB` in the other iteration order. -/
def defEventsBA : FSMDefinition :=
  ⟨"M", [], "pkg", false, [("b", ⟨["t"], "s", []⟩), ("a", ⟨["s"], "t", []⟩)]⟩

/-- Distinct one-character state names for the width sample, ascending. -/
def charName (i : Nat) : String := String.mk [Char.ofNat (256 + i)]

/-- The 256 distinct state names of the width sample. -/
def wideNames : List String := (List.range 256).map charName

/-- Sample for C3: one event whose sources reference 256 distinct states,
so the state count selects `uint16` while the event count selects
`uint8`. -/
def wideDef : FSMDefinition :=
  ⟨"Machine", [], "pkg", false, [("go", ⟨wideNames, charName 0, []⟩)]⟩

/-- Sample for C4: logging enabled, one event `start` transitioning from
`idle` to `running`. -/
def logDef : FSMDefinition :=
  ⟨"M", [], "pkg", true, [("start", ⟨["idle"], "running", []⟩)]⟩

/-- The event of the spec's two-parameter logging scenario. -/
def retryEvent : FSMEventDefinition :=
  ⟨["idle"], "idle", [⟨"retryCount", "int"⟩, ⟨"reason", "string"⟩]⟩

/-- Sample definition for the C7 witness: logging enabled, one event with
the spec scenario's parameters. -/
def paramsDef : FSMDefinition :=
  ⟨"M", [], "pkg", true, [("retry", retryEvent)]⟩

/-- The event used by the C8 witness. -/
def startEvent : FSMEventDefinition := ⟨["idle"], "running", []⟩

/-- Sample for C10: a definition referencing two states that differ only in
letter case. -/
def caseDef : FSMDefinition :=
  ⟨"M", [], "pkg", false, [("e", ⟨["idle"], "IDLE", []⟩)]⟩

set_option maxRecDepth 100000

set_option maxHeartbeats 1600000

theorem foldl_states_eq (events : List (String × FSMEventDefinition)) :
    ∀ init : List String,
      events.foldl (fun acc e => acc ++ [e.2.Destination] ++ e.2.Source) init
        = init ++ statesAll events := by
  induction events with
  | nil => intro init; simp [statesAll]
  | cons p evs ih =>
    intro init
    simp only [statesAll, List.foldl_cons]
    rw [ih, ih]
    simp

theorem statesAll_cons (p : String × FSMEventDefinition)
    (evs : List (String × FSMEventDefinition)) :
    statesAll (p :: evs) = p.2.Destination :: (p.2.Source ++ statesAll evs) := by
  have h : statesAll (p :: evs)
      = ([] ++ [p.2.Destination] ++ p.2.Source) ++ statesAll evs :=
    foldl_states_eq evs ([] ++ [p.2.Destination] ++ p.2.Source)
  rw [h]
  simp

theorem mem_statesAll {s : String} {events : List (String × FSMEventDefinition)} :
    s ∈ statesAll events ↔ ∃ p ∈ events, s = p.2.Destination ∨ s ∈ p.2.Source := by
  induction events with
  | nil => simp [statesAll]
  | cons p evs ih =>
    simp only [statesAll_cons, List.mem_cons, List.mem_append, ih]
    constructor
    · rintro (h | h | ⟨q, hq, hqs⟩)
      · exact ⟨p, Or.inl rfl, Or.inl h⟩
      · exact ⟨p, Or.inl rfl, Or.inr h⟩
      · exact ⟨q, Or.inr hq, hqs⟩
    · rintro ⟨q, rfl | hq, hqs⟩
      · exact hqs.elim Or.inl (fun h => Or.inr (Or.inl h))
      · exact Or.inr (Or.inr ⟨q, hq, hqs⟩)

theorem foldl_push_eq_map {α β : Type} (g : α → β) (l : List α) :
    ∀ init : List β, l.foldl (fun acc x => acc ++ [g x]) init = init ++ l.map g := by
  induction l with
  | nil => intro init; simp
  | cons a l ih =>
    intro init
    simp only [List.foldl_cons, List.map_cons]
    rw [ih]
    simp

theorem strJoin_nil : String.join [] = "" := rfl

theorem strJoin_cons (a : String) (l : List String) :
    String.join (a :: l) = a ++ String.join l := by
  apply String.ext
  simp [String.join_eq, String.data_append]

theorem strJoin_append (l₁ l₂ : List String) :
    String.join (l₁ ++ l₂) = String.join l₁ ++ String.join l₂ := by
  apply String.ext
  simp [String.join_eq, String.data_append]

theorem foldl_strpush_eq_join {α : Type} (g : α → String) (l : List α) :
    ∀ init : String,
      l.foldl (fun acc x => acc ++ g x) init = init ++ String.join (l.map g) := by
  induction l with
  | nil => intro init; simp [strJoin_nil, String.append_empty]
  | cons a l ih =>
    intro init
    simp only [List.foldl_cons, List.map_cons, strJoin_cons]
    rw [ih, String.append_assoc]

theorem validSrcs_eq_map (event : FSMEventDefinition) :
    validSrcs event = event.Source.map _GetStateName := by
  simpa [validSrcs] using foldl_push_eq_map _GetStateName event.Source []

theorem signature_eq_map (event : FSMEventDefinition) :
    signature event = event.Params.map (fun param => param.Name ++ " " ++ param.«Type») := by
  simpa [signature] using
    foldl_push_eq_map (fun param : FSMEventParams => param.Name ++ " " ++ param.«Type»)
      event.Params []

theorem callParams_eq_map (event : FSMEventDefinition) :
    callParams event = event.Params.map (fun param => param.Name) := by
  simpa [callParams] using
    foldl_push_eq_map (fun param : FSMEventParams => param.Name) event.Params []

theorem paramsLogText_eq_join (event : FSMEventDefinition) :
    paramsLogText event
      = String.join (event.Params.map
          (fun param => "\"" ++ param.Name ++ "\", " ++ param.Name ++ ",")) := by
  simpa [paramsLogText, String.empty_append] using
    foldl_strpush_eq_join
      (fun param : FSMEventParams => "\"" ++ param.Name ++ "\", " ++ param.Name ++ ",")
      event.Params ""

theorem toNat_charOfNat {n : Nat} (h : n.isValidChar) : (Char.ofNat n).toNat = n := by
  simp only [Char.ofNat, dif_pos h]
  rfl

theorem charName_inj {i j : Nat} (hi : i < 256) (hj : j < 256)
    (h : charName i = charName j) : i = j := by
  have hdata := congrArg String.data h
  simp only [charName] at hdata
  have hc : Char.ofNat (256 + i) = Char.ofNat (256 + j) := by
    injection hdata with h1 _
  have hvi : (256 + i).isValidChar := Or.inl (by omega)
  have hvj : (256 + j).isValidChar := Or.inl (by omega)
  have hn := congrArg Char.toNat hc
  rw [toNat_charOfNat hvi, toNat_charOfNat hvj] at hn
  omega

theorem wideNames_nodup : wideNames.Nodup := by
  refine List.Nodup.map_on ?_ (List.nodup_range 256)
  intro i hi j hj hEq
  exact charName_inj (List.mem_range.mp hi) (List.mem_range.mp hj) hEq

theorem charName_zero_mem : charName 0 ∈ wideNames :=
  List.mem_map_of_mem charName (List.mem_range.mpr (by omega))

theorem getStates_eq_nil_iff (definition : FSMDefinition) :
    _GetStates definition = [] ↔ definition.Events = [] := by
  constructor
  · intro h
    have hp : List.Perm (_GetStates definition) (statesAll definition.Events).dedup :=
      List.perm_insertionSort sLe _
    rw [h] at hp
    have hdedup : (statesAll definition.Events).dedup = [] := hp.symm.eq_nil
    have hall : statesAll definition.Events = [] := by
      rwa [List.dedup_eq_nil] at hdedup
    cases hev : definition.Events with
    | nil => rfl
    | cons p evs =>
      rw [hev, statesAll_cons] at hall
      cases hall
  · intro h
    have hall : statesAll definition.Events = [] := by rw [h]; rfl
    unfold _GetStates
    rw [hall]
    rfl

/-- C5: `_GetStates` returns a duplicate-free sequence of state names, sorted
lexicographically, whose underlying set equals exactly the union of every
`Source` entry and every `Destination` across all events, and whose first
element (ordinal 0) is the lexicographically smallest derived state name. -/
theorem getStates_sorted_unique_complete (definition : FSMDefinition) :
    (_GetStates definition).Pairwise sLe ∧
    (_GetStates definition).Nodup ∧
    (∀ s : String, s ∈ _GetStates definition ↔
      ∃ p ∈ definition.Events, s = p.2.Destination ∨ s ∈ p.2.Source) ∧
    (definition.Events ≠ [] → _GetStates definition ≠ [] ∧
      ∀ s ∈ _GetStates definition, sLe (_GetStates definition).head! s) := by
  have hperm : List.Perm (_GetStates definition) (statesAll definition.Events).dedup :=
    List.perm_insertionSort sLe _
  have hsorted : (_GetStates definition).Pairwise sLe :=
    List.sorted_insertionSort sLe _
  have hmem : ∀ s : String, s ∈ _GetStates definition ↔
      ∃ p ∈ definition.Events, s = p.2.Destination ∨ s ∈ p.2.Source := by
    intro s
    rw [hperm.mem_iff, List.mem_dedup, mem_statesAll]
  refine ⟨hsorted, hperm.nodup_iff.mpr (List.nodup_dedup _), hmem, ?_⟩
  intro hne
  have h0 : _GetStates definition ≠ [] := fun h =>
    hne ((getStates_eq_nil_iff definition).mp h)
  obtain ⟨a, t, hcons⟩ : ∃ a t, _GetStates definition = a :: t := by
    rcases h : _GetStates definition with _ | ⟨a, t⟩
    · exact absurd h h0
    · exact ⟨a, t, rfl⟩
  rw [hcons] at hsorted ⊢
  refine ⟨List.cons_ne_nil a t, ?_⟩
  intro s hs
  have hhead : (a :: t).head! = a := rfl
  rw [hhead]
  rcases List.mem_cons.mp hs with rfl | hs
  · exact le_refl s.data
  · exact (List.pairwise_cons.mp hsorted).1 s hs

/-- Witness for C5 at the spec scenario definition. -/
theorem getStates_sorted_unique_complete_witness :
    scenarioDef.Events ≠ [] ∧
    (_GetStates scenarioDef ≠ [] ∧
      ∀ s ∈ _GetStates scenarioDef, sLe (_GetStates scenarioDef).head! s) :=
  ⟨by decide, (getStates_sorted_unique_complete scenarioDef).2.2.2 (by decide)⟩

/-- C6: state derivation fails exactly on an empty event collection — the
`states[0]` access at the start of `GenerateStateDefinition` aborts (a fatal,
unrecovered index-out-of-range panic, modelled as `none`) precisely when the
definition has no events, and succeeds without error when it has at least
one event. -/
theorem stateDeriver_fails_iff_no_events (definition : FSMDefinition) :
    ((GenerateStateDefinition definition (_GetStates definition) = none) ↔
      definition.Events = []) ∧
    (definition.Events ≠ [] →
      (GenerateStateDefinition definition (_GetStates definition)).isSome) := by
  have hnil : GenerateStateDefinition definition (_GetStates definition) = none ↔
      definition.Events = [] := by
    rw [← getStates_eq_nil_iff definition]
    rcases h : _GetStates definition with _ | ⟨a, t⟩ <;>
      simp [GenerateStateDefinition, h]
  refine ⟨hnil, ?_⟩
  intro hne
  rcases hv : GenerateStateDefinition definition (_GetStates definition) with _ | v
  · exact absurd (hnil.mp hv) hne
  · rfl

/-- Witness for C6 at the spec scenario definition. -/
theorem stateDeriver_fails_iff_no_events_witness :
    scenarioDef.Events ≠ [] ∧
    (GenerateStateDefinition scenarioDef (_GetStates scenarioDef)).isSome :=
  ⟨by decide, (stateDeriver_fails_iff_no_events scenarioDef).2 (by decide)⟩

/-- C9: for a definition with a non-empty event map `_GetStates` is non-empty,
the `states[0]` access in `GenerateStateDefinition` is in bounds and
`BuildText` totally produces a document; with an empty event map the access
is out of bounds and `BuildText` aborts. -/
theorem buildText_total_iff_events (definition : FSMDefinition) :
    (definition.Events ≠ [] → _GetStates definition ≠ [] ∧ (BuildText definition).isSome) ∧
    (definition.Events = [] → BuildText definition = none) := by
  constructor
  · intro hne
    have h0 : _GetStates definition ≠ [] := fun h =>
      hne ((getStates_eq_nil_iff definition).mp h)
    refine ⟨h0, ?_⟩
    rcases h : _GetStates definition with _ | ⟨a, t⟩
    · exact absurd h h0
    · simp [BuildText, GenerateStateDefinition, h]
  · intro he
    have h : _GetStates definition = [] := (getStates_eq_nil_iff definition).mpr he
    simp [BuildText, GenerateStateDefinition, h]

/-- Witness for C9: the scenario definition generates, the empty definition
aborts. -/
theorem buildText_total_iff_events_witness :
    scenarioDef.Events ≠ [] ∧
    (_GetStates scenarioDef ≠ [] ∧ (BuildText scenarioDef).isSome) ∧
    BuildText emptyDef = none :=
  ⟨by decide, (buildText_total_iff_events scenarioDef).1 (by decide),
    (buildText_total_iff_events emptyDef).2 rfl⟩

/-- Counterexample for C2: at the boundary count 256 the code widens to
`uint16`, yet the 8-bit width already satisfies the claim's criterion
`2 ^ 8 > 256 - 1`, so the returned width is not minimal for it. -/
theorem widthSpec_fails_at_256 : ¬ WidthSpecSelects 256 := by decide

/-- C2 (amended): for every count `n < 2 ^ 64`, `_GetNeededUintSize` returns
the name of the smallest ladder width `w` with `2 ^ w > n` — one able to
represent the count value `n` itself — and no smaller ladder width satisfies
that; `n = 0` and `n = 1` select the 8-bit width. -/
theorem neededUintSize_minimal (n : Nat) (h : n < 2 ^ 64) :
    ∃ w ∈ uintLadder, _GetNeededUintSize n = uintName w ∧ 2 ^ w > n ∧
      ∀ w' ∈ uintLadder, w' < w → ¬ 2 ^ w' > n := by
  have e8 : (2 : Nat) ^ 8 = 256 := by norm_num
  have e16 : (2 : Nat) ^ 16 = 65536 := by norm_num
  have e32 : (2 : Nat) ^ 32 = 4294967296 := by norm_num
  rcases le_or_lt n 255 with h1 | h1
  · refine ⟨8, by decide, ?_, by omega, ?_⟩
    · show _GetNeededUintSize n = "uint8"
      simp only [_GetNeededUintSize]
      rw [if_neg (by omega), if_neg (by omega), if_neg (by omega)]
    · intro w' hw' hlt
      fin_cases hw' <;> omega
  · rcases le_or_lt n 65535 with h2 | h2
    · refine ⟨16, by decide, ?_, by omega, ?_⟩
      · show _GetNeededUintSize n = "uint16"
        simp only [_GetNeededUintSize]
        rw [if_neg (by omega), if_neg (by omega), if_pos (by omega)]
      · intro w' hw' hlt
        fin_cases hw' <;> omega
    · rcases le_or_lt n 4294967295 with h3 | h3
      · refine ⟨32, by decide, ?_, by omega, ?_⟩
        · show _GetNeededUintSize n = "uint32"
          simp only [_GetNeededUintSize]
          rw [if_neg (by omega), if_pos (by omega)]
        · intro w' hw' hlt
          fin_cases hw' <;> omega
      · refine ⟨64, by decide, ?_, by omega, ?_⟩
        · show _GetNeededUintSize n = "uint64"
          simp only [_GetNeededUintSize]
          rw [if_pos (by omega)]
        · intro w' hw' hlt
          fin_cases hw' <;> omega

/-- Witness for the amended C2 at the spec's 300-state scenario count. -/
theorem neededUintSize_minimal_witness :
    300 < 2 ^ 64 ∧
    ∃ w ∈ uintLadder, _GetNeededUintSize 300 = uintName w ∧ 2 ^ w > 300 ∧
      ∀ w' ∈ uintLadder, w' < w → ¬ 2 ^ w' > 300 :=
  ⟨by norm_num, neededUintSize_minimal 300 (by norm_num)⟩

/-- C1 (divergence exhibit): `BuildText` emits event blocks and assigns
ordinals in raw map-iteration order — two iteration orders of the same
event map give different output bytes, and in the order starting with `b`
the event `b` receives ordinal 0 although its position under the
lexicographic sort of the event names is 1. -/
theorem buildText_follows_iteration_order :
    List.Perm defEventsAB.Events defEventsBA.Events ∧
    BuildText defEventsAB ≠ BuildText defEventsBA ∧
    eventsLoop defEventsBA (_GetStates defEventsBA) defEventsBA.Events 0
      = GenerateFSMEvent defEventsBA (_GetStates defEventsBA) 0 "b" ⟨["t"], "s", []⟩
        ++ GenerateFSMEvent defEventsBA (_GetStates defEventsBA) 1 "a" ⟨["s"], "t", []⟩ ∧
    List.insertionSort sLe (defEventsBA.Events.map Prod.fst) = ["a", "b"] := by
  refine ⟨by decide, by decide, rfl, by decide⟩

/-- C3 (divergence exhibit): `GenerateFSMDefinition` types the machine's
current-state field with the width selected for the number of events, not
the width selected for the number of derived states. -/
theorem fsmDefinition_width_from_event_count :
    GenerateFSMDefinition wideDef = FSM_DEF "Machine" "uint8" ∧
    (_GetStates wideDef).length = 256 ∧
    _GetNeededUintSize (_GetStates wideDef).length = "uint16" ∧
    GenerateFSMDefinition wideDef
      ≠ FSM_DEF wideDef.Name (_GetNeededUintSize (_GetStates wideDef).length) := by
  have hsa : statesAll wideDef.Events = charName 0 :: wideNames := rfl
  have hlen : (_GetStates wideDef).length = 256 := by
    have hperm : List.Perm (_GetStates wideDef) (statesAll wideDef.Events).dedup :=
      List.perm_insertionSort sLe _
    rw [hperm.length_eq, hsa, List.dedup_cons_of_mem charName_zero_mem,
      List.dedup_eq_self.mpr wideNames_nodup]
    simp [wideNames]
  refine ⟨rfl, hlen, ?_, ?_⟩
  · rw [hlen]
    decide
  · rw [hlen]
    decide

/-- C4 (divergence exhibit): with logging enabled the emitted log text ends
with a message naming `STATE_` plus the upper-cased EVENT name (here
`STATE_START`), not the mangled destination state (`STATE_RUNNING`), which
does not occur in the text. -/
theorem logging_message_names_event :
    eventLogging logDef "start" ⟨["idle"], "running", []⟩
      = "slog.With(\"Start State\", fsm.State,).Info(\"User has transitioned to STATE_START\")" ∧
    _GetStateName (⟨["idle"], "running", []⟩ : FSMEventDefinition).Destination
      = "STATE_RUNNING" :=
  ⟨by decide, by decide⟩

/-- The shape the logging text takes whenever `UseSLog` is set: the
`slog.With` opening tagged with the starting state, the parameter pairs,
and the closing `.Info` message built from the mangled event name. -/
theorem eventLogging_eq (definition : FSMDefinition) (eventName : String)
    (event : FSMEventDefinition) (hlog : definition.UseSLog = true) :
    eventLogging definition eventName event
      = "slog.With(\"Start State\", fsm.State," ++ paramsLogText event
        ++ ").Info(\"User has transitioned to " ++ _GetStateName eventName ++ "\")" := by
  simp [eventLogging, hlog]

/-- C7: the generated signature lists the event's parameters as
`name type` pairs in declared order, and with logging enabled the emitted
log call opens tagged with the pre-transition state and references every
parameter by its name. -/
theorem signature_and_logging_params (definition : FSMDefinition)
    (eventName : String) (event : FSMEventDefinition)
    (hlog : definition.UseSLog = true) :
    signature event
      = event.Params.map (fun param => param.Name ++ " " ++ param.«Type») ∧
    (∃ rest : String, eventLogging definition eventName event
        = "slog.With(\"Start State\", fsm.State," ++ rest) ∧
    (∀ param ∈ event.Params, ∃ a b : String,
      eventLogging definition eventName event
        = a ++ ("\"" ++ param.Name ++ "\", " ++ param.Name ++ ",") ++ b) := by
  refine ⟨signature_eq_map event, ?_, ?_⟩
  · refine ⟨paramsLogText event
      ++ (").Info(\"User has transitioned to " ++ _GetStateName eventName ++ "\")"), ?_⟩
    rw [eventLogging_eq definition eventName event hlog]
    simp [String.append_assoc]
  · intro param hmem
    obtain ⟨l₁, l₂, hsplit⟩ := List.mem_iff_append.mp hmem
    refine ⟨"slog.With(\"Start State\", fsm.State,"
        ++ String.join (l₁.map (fun q => "\"" ++ q.Name ++ "\", " ++ q.Name ++ ",")),
      String.join (l₂.map (fun q => "\"" ++ q.Name ++ "\", " ++ q.Name ++ ","))
        ++ (").Info(\"User has transitioned to " ++ _GetStateName eventName ++ "\")"), ?_⟩
    rw [eventLogging_eq definition eventName event hlog, paramsLogText_eq_join, hsplit]
    simp [strJoin_append, strJoin_cons, String.append_assoc]

/-- Witness for C7 at the spec's two-parameter scenario. -/
theorem signature_and_logging_params_witness :
    paramsDef.UseSLog = true ∧
    (signature retryEvent
        = retryEvent.Params.map (fun param => param.Name ++ " " ++ param.«Type») ∧
    (∃ rest : String, eventLogging paramsDef "retry" retryEvent
        = "slog.With(\"Start State\", fsm.State," ++ rest) ∧
    (∀ param ∈ retryEvent.Params, ∃ a b : String,
      eventLogging paramsDef "retry" retryEvent
        = a ++ ("\"" ++ param.Name ++ "\", " ++ param.Name ++ ",") ++ b)) :=
  ⟨rfl, signature_and_logging_params paramsDef "retry" retryEvent rfl⟩

/-- C8: guard soundness — a call outside the event's sources is rejected
with the current-state field unchanged — and guard completeness — a call
from a source state is accepted and sets the field to the event's
destination, one mutation per accepted call and zero per rejected one. -/
theorem generatedTransition_guard (event : FSMEventDefinition)
    (m : GeneratedMachine) :
    (m.State ∉ validSrcs event → generatedTransition event m = (false, m)) ∧
    (m.State ∈ validSrcs event →
      generatedTransition event m = (true, ⟨_GetStateName event.Destination⟩)) := by
  constructor
  · intro h
    simp [generatedTransition, h]
  · intro h
    simp [generatedTransition, h]

/-- Witness for C8: from `STATE_IDLE` the `start` transition is accepted
and moves to the mangled destination; from `STATE_RUNNING` it is rejected
and the state is unchanged. -/
theorem generatedTransition_guard_witness :
    generatedTransition startEvent ⟨"STATE_IDLE"⟩
      = (true, ⟨_GetStateName startEvent.Destination⟩) ∧
    generatedTransition startEvent ⟨"STATE_RUNNING"⟩ = (false, ⟨"STATE_RUNNING"⟩) :=
  ⟨(generatedTransition_guard startEvent ⟨"STATE_IDLE"⟩).2 (by decide),
    (generatedTransition_guard startEvent ⟨"STATE_RUNNING"⟩).1 (by decide)⟩

/-- C10: the state-name mangling is not injective — `idle` and `IDLE` are
distinct derived states of `caseDef`, yet both mangle to `STATE_IDLE`, so
the emitted enum constants collide. -/
theorem stateName_not_injective :
    _GetStateName "idle" = _GetStateName "IDLE" ∧ "idle" ≠ "IDLE" ∧
    _GetStates caseDef = ["IDLE", "idle"] ∧
    (_GetStates caseDef).map _GetStateName = ["STATE_IDLE", "STATE_IDLE"] := by
  refine ⟨by decide, by decide, by decide, by decide⟩
